import Mathlib

/-!
Verification of the amsat-0.5 satellite-tracking core against its
natural-language specification.

The Python sources are shallowly embedded here:
* `TimeRoutines.py`   → day-of-year arithmetic, `GenerateTimeVec`
* `keplerian_parser.py` → `ParseTwoLineElementFile`'s line loop
* `tle_to_kep.py`     → the Kepler-equation Newton solver (over `ℝ`)
* `src/gs232/commands.py` → `parse_c2`
* `src/gs232/serial_manager.py` → `write_cmd`'s retry loop
* `main_gs232b.py`    → the anti-jitter rotator-control tick
* `src/pass_visibility.py` → the visibility scan

Float arithmetic is idealised as `ℚ` (or `ℝ` where the code is
transcendental); machine integers are `ℤ`/`ℕ`.
-/

set_option maxRecDepth 100000

namespace Amsat

/-! ## Python / NumPy helpers -/

/-- Python's builtin `round` to an integer: round half to even
(banker's rounding), which is the tie rule of IEEE-754 `rint` and of
Python `round(float)`.  Modelled exactly on `ℚ`. -/
def pyRound (x : ℚ) : ℤ :=
  let f : ℤ := ⌊x⌋
  let r : ℚ := x - f
  if r < 1/2 then f
  else if 1/2 < r then f + 1
  else if f % 2 = 0 then f else f + 1

/-- `numpy.linspace(a, b, num, endpoint=True)`: `num` evenly spaced
samples from `a` to `b` inclusive.  In exact arithmetic the final
sample equals `b` without NumPy's explicit fix-up. -/
def linspace (a b : ℚ) (num : ℕ) : List ℚ :=
  if num = 0 then []
  else if num = 1 then [a]
  else (List.range num).map (fun (i : ℕ) => a + (i : ℚ) * ((b - a) / ((num : ℚ) - 1)))

theorem linspace_length (a b : ℚ) (num : ℕ) : (linspace a b num).length = num := by
  unfold linspace
  split
  · simp only [List.length_nil]; omega
  · split
    · simp only [List.length_cons, List.length_nil]; omega
    · simp

theorem linspace_of_two_le (a b : ℚ) (num : ℕ) (h2 : 2 ≤ num) :
    linspace a b num =
      (List.range num).map (fun (i : ℕ) => a + (i : ℚ) * ((b - a) / ((num : ℚ) - 1))) := by
  unfold linspace
  rw [if_neg (by omega), if_neg (by omega)]

theorem linspace_head (a b : ℚ) (num : ℕ) (h : 0 < num) :
    (linspace a b num).head? = some a := by
  unfold linspace
  split
  · omega
  · split
    · rfl
    · rcases num with _ | n
      · omega
      · simp [List.range_succ_eq_map]

theorem linspace_getElem (a b : ℚ) (num : ℕ) (i : ℕ) (h2 : 2 ≤ num)
    (hi : i < (linspace a b num).length) :
    (linspace a b num)[i] = a + (i : ℚ) * ((b - a) / ((num : ℚ) - 1)) := by
  simp only [linspace_of_two_le a b num h2]
  rw [List.getElem_map, List.getElem_range]

theorem linspace_evenly_spaced (a b : ℚ) (num : ℕ) :
    ∃ d, ∀ i, (h : i + 1 < (linspace a b num).length) →
      (linspace a b num)[i + 1] - (linspace a b num)[i] = d := by
  rcases Nat.lt_or_ge num 2 with hlt | hge
  · refine ⟨0, fun i h => ?_⟩
    rw [linspace_length] at h; omega
  · refine ⟨(b - a) / ((num : ℚ) - 1), fun i h => ?_⟩
    rw [linspace_getElem a b num (i+1) hge h,
        linspace_getElem a b num i hge (by omega)]
    push_cast
    ring

/-! ## TimeRoutines.py -/

/-- A broken-down UTC instant, the result of Python's
`datetime.strptime(date_str, '%Y %m %d %H %M %S')`. -/
structure Ymdhms where
  year : ℤ
  month : ℕ
  day : ℕ
  hour : ℕ
  minute : ℕ
  second : ℕ
deriving DecidableEq

/-- Proleptic-Gregorian leap-year rule used by Python's `datetime`. -/
def isLeapYear (y : ℤ) : Bool :=
  y % 4 = 0 && (y % 100 ≠ 0 || y % 400 = 0)

/-- Days in the months strictly before month `m` (1-based). -/
def daysBeforeMonth (leap : Bool) (m : ℕ) : ℕ :=
  let feb := if leap then 29 else 28
  match m with
  | 1 => 0
  | 2 => 31
  | 3 => 31 + feb
  | 4 => 62 + feb
  | 5 => 92 + feb
  | 6 => 123 + feb
  | 7 => 153 + feb
  | 8 => 184 + feb
  | 9 => 215 + feb
  | 10 => 245 + feb
  | 11 => 276 + feb
  | 12 => 306 + feb
  | _ => 0

/-- `TimeRoutines.Date_to_nth_day`: 1-based fractional day of year,
`(delta.days + 1) + delta.seconds / 86400` against Jan 1 00:00:00. -/
def dateToNthDay (d : Ymdhms) : ℚ :=
  ((daysBeforeMonth (isLeapYear d.year) d.month + d.day : ℕ) : ℚ)
    + ((3600 * d.hour + 60 * d.minute + d.second : ℕ) : ℚ) / 86400

/-- Two-digit epoch-year pivot used throughout: `< 57 → 20xx`, else `19xx`. -/
def normalizeEpochYear (y : ℤ) : ℤ :=
  if y < 57 then y + 2000 else y + 1900

/-- `TimeRoutines.GenerateTimeVec`.  The number of samples comes from
`constants.num_time_pts` (the `constants` module is not in the sources,
so the count is a parameter here).  `none` models the `sys.exit()` call
taken when the converted start day exceeds the end day; the year-forcing
block of the source only rewrites local variables that feed `print`
calls and has no effect on the returned value, so it is omitted.
A start day earlier than the element epoch is clamped up to the epoch
before `np.linspace` is taken. -/
def generateTimeVec (numTimePts : ℕ) (startT endT : Ymdhms)
    (tleEpochYear : ℤ) (tleEpochDays : ℚ) : Option (List ℚ × ℤ) :=
  -- `future_start_days > future_end_days` → `sys.exit()`, modelled as `none`;
  -- otherwise `future_start_days` is clamped up to `tle_epoch_days`.
  if dateToNthDay endT < dateToNthDay startT then none
  else
    some (linspace
            (if dateToNthDay startT < tleEpochDays then tleEpochDays else dateToNthDay startT)
            (dateToNthDay endT) numTimePts,
          normalizeEpochYear tleEpochYear)

theorem generateTimeVec_isSome_iff (numTimePts : ℕ) (startT endT : Ymdhms)
    (ey : ℤ) (ed : ℚ) :
    (generateTimeVec numTimePts startT endT ey ed).isSome ↔
      dateToNthDay startT ≤ dateToNthDay endT := by
  unfold generateTimeVec
  split
  next h => simp only [Option.isSome_none, Bool.false_eq_true, false_iff, not_le]; exact h
  next h => simp only [Option.isSome_some, true_iff]; linarith [not_lt.mp h]

theorem generateTimeVec_eq_some (numTimePts : ℕ) (startT endT : Ymdhms)
    (ey : ℤ) (ed : ℚ) (h : dateToNthDay startT ≤ dateToNthDay endT) :
    generateTimeVec numTimePts startT endT ey ed =
      some (linspace (max (dateToNthDay startT) ed) (dateToNthDay endT) numTimePts,
            normalizeEpochYear ey) := by
  unfold generateTimeVec
  rw [if_neg (not_lt.mpr h)]
  rcases le_or_lt ed (dateToNthDay startT) with hle | hlt
  · rw [if_neg (not_lt.mpr hle), max_eq_left hle]
  · rw [if_pos hlt, max_eq_right hlt.le]

/-! ## keplerian_parser.py -/

/-- Worker for Python `str.split()`: accumulate the current token
(reversed) and break on whitespace. -/
def splitWSGo : List Char → List Char → List (List Char)
  | [], cur => if cur = [] then [] else [cur.reverse]
  | c :: rest, cur =>
    if c.isWhitespace then
      if cur = [] then splitWSGo rest [] else cur.reverse :: splitWSGo rest []
    else splitWSGo rest (c :: cur)

/-- Python `str.split()` with no argument: split on runs of whitespace,
dropping empty pieces (the source's extra `filter(None, …)` is then a
no-op).  Tokens are kept as character lists, matching Python string
slicing and indexing. -/
def splitWS (s : String) : List (List Char) :=
  splitWSGo s.data []

/-- Digit run at the front of a character list: the digits and the rest. -/
def takeDigits : List Char → List Char × List Char
  | [] => ([], [])
  | c :: cs =>
    if c.isDigit then
      let (ds, rest) := takeDigits cs
      (c :: ds, rest)
    else ([], c :: cs)

/-- Numeric value of a digit string (most significant first). -/
def digitsToNat (ds : List Char) : ℕ :=
  ds.foldl (fun acc c => 10 * acc + (c.toNat - 48)) 0

/-- Python `float(s)` on the literal forms appearing in element files:
optional sign, digits, optional decimal point and fraction digits;
`none` models the `ValueError` raised on anything else (trailing junk,
letters, empty string).  Exponent notation is not needed by any parsed
field. -/
def pyFloat? (s : List Char) : Option ℚ :=
  let (sign, cs) : ℚ × List Char :=
    match s with
    | '+' :: r => (1, r)
    | '-' :: r => (-1, r)
    | cs => (1, cs)
  let (ip, rest) := takeDigits cs
  match rest with
  | [] => if ip = [] then none else some (sign * (digitsToNat ip : ℚ))
  | '.' :: r =>
    let (fp, rest2) := takeDigits r
    if rest2 ≠ [] then none
    else if ip = [] && fp = [] then none
    else some (sign * ((digitsToNat ip : ℚ) + (digitsToNat fp : ℚ) / 10 ^ fp.length))
  | _ => none

/-- The nine floats stored per satellite by `ParseTwoLineElementFile`:
`[epoch_year, epoch_days, inclination, RAAN, eccentricity, arg_perigee,
mean_anomaly, mean_motion, ftdmm]`, all in the raw units of the file. -/
structure TLEFields where
  epochYear : ℚ
  epochDays : ℚ
  inclination : ℚ
  raan : ℚ
  ecc : ℚ
  argPerigee : ℚ
  meanAnomaly : ℚ
  meanMotion : ℚ
  ftdmm : ℚ
deriving DecidableEq

/-- Element line 1 handling (`counter == 1` branch): `split_line[3]` is
the epoch field (two-digit year prefix, day-of-year remainder) and
`split_line[4]` the mean-motion derivative.  A missing token is a
Python `IndexError`, a bad literal a `ValueError`; both are unhandled,
hence `none`. -/
def parseLine1 (tokens : List (List Char)) : Option (ℚ × ℚ × ℚ) := do
  let epochInfo ← tokens[3]?
  let ftdmmTok ← tokens[4]?
  let ey ← pyFloat? (epochInfo.take 2)
  let ed ← pyFloat? (epochInfo.drop 2)
  let ft ← pyFloat? ftdmmTok
  pure (ey, ed, ft)

/-- Element line 2 handling (`counter == 2` branch): fields at token
indices 2–7; the eccentricity string gets a decimal point prepended
unless it already starts with one. -/
def parseLine2 (tokens : List (List Char)) : Option (ℚ × ℚ × ℚ × ℚ × ℚ × ℚ) := do
  let inclTok ← tokens[2]?
  let raanTok ← tokens[3]?
  let eccTok ← tokens[4]?
  let argpTok ← tokens[5]?
  let maTok ← tokens[6]?
  let mmTok ← tokens[7]?
  let eccTok := match eccTok with
    | '.' :: _ => eccTok
    | _ => '.' :: eccTok
  let incl ← pyFloat? inclTok
  let raan ← pyFloat? raanTok
  let ecc ← pyFloat? eccTok
  let argp ← pyFloat? argpTok
  let ma ← pyFloat? maTok
  let mm ← pyFloat? mmTok
  pure (incl, raan, ecc, argp, ma, mm)

/-- Loop state of `ParseTwoLineElementFile`: the 3-phase line counter,
the current satellite name, the slots of the `results` array filled by
line 1, and the records stored so far (the Python dict keeps the last
record per name; order of insertion is kept here). -/
structure PState where
  counter : ℕ
  satName : String
  r0 : ℚ
  r1 : ℚ
  r8 : ℚ
  acc : List (String × TLEFields)
deriving DecidableEq

/-- One iteration of the `for line in lines` loop.  `none` models an
uncaught exception escaping `ParseTwoLineElementFile` (there is no
`try`/`except` and no line-prefix check in the source). -/
def parseStep (st : PState) (line : String) : Option PState :=
  match st.counter with
  | 0 =>
    let name := match splitWS line with
      | [] => "UNKNOWN"
      | t :: _ => String.mk t
    some { st with satName := name, counter := 1 }
  | 1 =>
    match parseLine1 (splitWS line) with
    | none => none
    | some (ey, ed, ft) => some { st with r0 := ey, r1 := ed, r8 := ft, counter := 2 }
  | _ =>
    match parseLine2 (splitWS line) with
    | none => none
    | some (incl, raan, ecc, argp, ma, mm) =>
      some { st with
             acc := st.acc ++ [(st.satName,
                    ⟨st.r0, st.r1, incl, raan, ecc, argp, ma, mm, st.r8⟩)],
             r0 := 0, r1 := 0, r8 := 0, counter := 0 }

/-- `ParseTwoLineElementFile`'s line loop on an already-fetched list of
text lines (the HTTP fetch and BeautifulSoup text extraction are I/O,
outside the embedding).  `none` models the whole call dying on an
uncaught exception; otherwise every stored `(name, record)` pair is
returned. -/
def parseTLELines (lines : List String) : Option (List (String × TLEFields)) :=
  (lines.foldlM parseStep ⟨0, "", 0, 0, 0, []⟩).map PState.acc

/-! ## src/gs232/commands.py -/

/-- Python `str.strip()` (ASCII whitespace: the replies are ASCII). -/
def pyStrip (s : List Char) : List Char :=
  (((s.dropWhile Char.isWhitespace).reverse).dropWhile Char.isWhitespace).reverse

/-- Python `reply.replace('+0', '+')`: leftmost, non-overlapping,
scanning resumes after each replacement. -/
def replacePlusZero : List Char → List Char
  | '+' :: '0' :: rest => '+' :: replacePlusZero rest
  | c :: rest => c :: replacePlusZero rest
  | [] => []

/-- Worker for Python `str.split('+')`: empty pieces are kept. -/
def splitPlusGo : List Char → List Char → List (List Char)
  | [], cur => [cur.reverse]
  | '+' :: rest, cur => cur.reverse :: splitPlusGo rest []
  | c :: rest, cur => splitPlusGo rest (c :: cur)

/-- Python `str.split('+')`. -/
def splitPlus (s : List Char) : List (List Char) :=
  splitPlusGo s []

/-- `parse_c2`: tolerant parse of a GS-232B `C2` position reply.
Replies shorter than 8 characters yield `None`; otherwise the reply is
stripped, `'+0'` collapsed to `'+'`, split on `'+'`, and the nonempty
pieces converted with `float`; exactly two numbers yield the pair and
every failure path (including a `ValueError` inside the `try`) yields
`None`. -/
def parseC2 (reply : String) : Option (ℚ × ℚ) :=
  if reply.data.length < 8 then none
  else
    let parts := (splitPlus (replacePlusZero (pyStrip reply.data))).filter
      (fun p => p ≠ [])
    match parts.mapM pyFloat? with
    | none => none
    | some nums =>
      match nums with
      | [az, el] => some (az, el)
      | _ => none

/-! ## src/gs232/serial_manager.py -/

/-- Outcome of one write attempt on the serial link: `ok reply` if the
write (and the optional readline) went through, `error` for a
`SerialException`.  The physical port is external, so attempts are an
oracle indexed by attempt number. -/
def writeCmdFrom (oracle : ℕ → Except Unit String) (expectReply : Bool) :
    ℕ → ℕ → String
  | 0, _ => ""
  | n + 1, idx =>
    match oracle idx with
    | Except.ok reply => if expectReply then reply else ""
    | Except.error _ => writeCmdFrom oracle expectReply n (idx + 1)

/-- `SerialManager.write_cmd`: up to `retries + 1` attempts; a failed
attempt closes, pauses and reopens the port, then retries; when every
attempt has failed the empty string is returned — the method never
raises. -/
def writeCmd (oracle : ℕ → Except Unit String) (expectReply : Bool)
    (retries : ℕ) : String :=
  writeCmdFrom oracle expectReply (retries + 1) 0

theorem writeCmdFrom_all_fail (oracle : ℕ → Except Unit String)
    (expectReply : Bool) (n idx : ℕ)
    (h : ∀ i, oracle i = Except.error ()) :
    writeCmdFrom oracle expectReply n idx = "" := by
  induction n generalizing idx with
  | zero => rfl
  | succ n ih =>
    unfold writeCmdFrom
    rw [h idx]
    exact ih (idx + 1)

/-! ## main_gs232b.py — anti-jitter rotator control

The knobs fixed at the top of `runPredictionTool`:
`AZ_DEADBAND_DEG = 0.4`, `EL_DEADBAND_DEG = 0.3`, `MIN_INTERVAL_S = 1.0`,
`AZ_SLEW_DEG_PER_S = 8.0`, `EL_SLEW_DEG_PER_S = 6.0`,
`QUANT_STEP_DEG = 0.2`, `ZENITH_FREEZE_DEG = 87.0`, `USE_AZ_UNWRAP = True`.
-/

def AZ_DEADBAND : ℚ := 2/5
def EL_DEADBAND : ℚ := 3/10
def MIN_INTERVAL : ℚ := 1
def AZ_SLEW : ℚ := 8
def EL_SLEW : ℚ := 6
def QUANT_STEP : ℚ := 1/5
def ZENITH_FREEZE : ℚ := 87

/-- `unwrap_az(prev, new_0to360)`: the candidate among
`new`, `new+360`, `new−360` nearest to `prev`, via Python's `min` with
an `abs` key (first candidate wins ties). -/
def unwrapAz (prev : Option ℚ) (new0to360 : ℚ) : ℚ :=
  match prev with
  | none => new0to360
  | some p =>
    let c2 := new0to360 + 360
    let c3 := new0to360 - 360
    let b2 := if |c2 - p| < |new0to360 - p| then c2 else new0to360
    if |c3 - p| < |b2 - p| then c3 else b2

/-- `_quantize(v)`: round to the nearest `QUANT_STEP_DEG` grid point. -/
def quantize (v : ℚ) : ℚ := (pyRound (v / QUANT_STEP) : ℚ) * QUANT_STEP

/-- `_slew_toward(current, target, max_rate_deg_s, dt)`. -/
def slewToward (current : Option ℚ) (target maxRate dt : ℚ) : ℚ :=
  match current with
  | none => target
  | some cur =>
    let maxDelta := maxRate * max dt (1/1000)
    let dv := target - cur
    let dv := if maxDelta < dv then maxDelta else dv
    let dv := if dv < -maxDelta then -maxDelta else dv
    cur + dv

/-- `RotatorCommandState`: the module-level mutable cells
`smoothed = {"az": None, "el": None}`, `last_cmd = {"az": None, "el": None}`
and `last_sent_time = [0.0]`. -/
structure CtrlState where
  smoothedAz : Option ℚ
  smoothedEl : Option ℚ
  lastAz : Option ℚ
  lastEl : Option ℚ
  lastSentTime : ℚ
deriving DecidableEq

def initState : CtrlState := ⟨none, none, none, none, 0⟩

/-- What one `animate` tick did on the command path. -/
inductive TickOutcome where
  | hold
  | skipDeadband (az el : ℚ)
  | skipRate (az el : ℚ)
  | sent (az el : ℚ)
deriving DecidableEq

/-- `dt = min(2.0, max(0.05, now − last_sent_time if last_sent_time > 0 else 0.6))`. -/
def tickDt (s : CtrlState) (now : ℚ) : ℚ :=
  min 2 (max (1/20) (if 0 < s.lastSentTime then now - s.lastSentTime else 3/5))

/-- The slewed `(smoothed_az, smoothed_el)` a non-holding tick writes
back: initialise the smoothed state at the raw reading, unwrap the
azimuth against the previous smoothed value (`USE_AZ_UNWRAP` is true),
freeze it at the previous smoothed value above `ZENITH_FREEZE_DEG`, and
slew both axes. -/
def tickSmoothed (s : CtrlState) (now az0to360 el : ℚ) : ℚ × ℚ :=
  let saz0 := s.smoothedAz.getD az0to360
  let sel0 := s.smoothedEl.getD el
  let targetAz := if ZENITH_FREEZE ≤ el then saz0 else unwrapAz (some saz0) az0to360
  let dt := tickDt s now
  (slewToward (some saz0) targetAz AZ_SLEW dt, slewToward (some sel0) el EL_SLEW dt)

/-- The quantized and clamped `(az_cmd, el_cmd)` pair of a tick. -/
def tickTargets (s : CtrlState) (now az0to360 el : ℚ) : ℚ × ℚ :=
  (max 0 (min 450 (quantize (tickSmoothed s now az0to360 el).1)),
   max 0 (min 180 (quantize (tickSmoothed s now az0to360 el).2)))

/-- The deadband gate's chained condition, exactly Python's
`last_cmd["az"] is not None and last_cmd["el"] is not None and
abs(az_cmd − last_az) < AZ_DEADBAND_DEG and
abs(el_cmd − last_el) < EL_DEADBAND_DEG`. -/
def deadbandHit (s : CtrlState) (azCmd elCmd : ℚ) : Bool :=
  match s.lastAz, s.lastEl with
  | some la, some le =>
    decide (|azCmd - la| < AZ_DEADBAND) && decide (|elCmd - le| < EL_DEADBAND)
  | _, _ => false

/-- One `animate` tick, command path only: below the horizon hold
without touching any state; otherwise update the smoothed state, then
deadband-gate against the last *sent* command, then rate-gate against
the last send time, else send and record the command and timestamp. -/
def tick (s : CtrlState) (now az0to360 el : ℚ) : CtrlState × TickOutcome :=
  if el < 0 then (s, TickOutcome.hold)
  else
    let azCmd := (tickTargets s now az0to360 el).1
    let elCmd := (tickTargets s now az0to360 el).2
    let s1 : CtrlState := { s with
      smoothedAz := some (tickSmoothed s now az0to360 el).1,
      smoothedEl := some (tickSmoothed s now az0to360 el).2 }
    if deadbandHit s azCmd elCmd then
      (s1, TickOutcome.skipDeadband azCmd elCmd)
    else if 0 < s.lastSentTime ∧ now - s.lastSentTime < MIN_INTERVAL then
      (s1, TickOutcome.skipRate azCmd elCmd)
    else
      ({ s1 with lastAz := some azCmd, lastEl := some elCmd, lastSentTime := now },
       TickOutcome.sent azCmd elCmd)

/-! ## src/pass_visibility.py -/

/-- One continuous interval with elevation above the threshold. -/
structure PassInterval where
  tStart : ℚ
  tPeak : ℚ
  tEnd : ℚ
  maxEl : ℚ
deriving DecidableEq

/-- The sample instants of the `while t <= end_dt` loop: `start + k·step`
for `k = 0, 1, …` while the instant is at most `end_dt` (for a positive
step; the source would not terminate otherwise). -/
def sampleTimes (startT endT step : ℚ) : List ℚ :=
  if startT ≤ endT then
    (List.range (⌊(endT - startT) / step⌋.toNat + 1)).map
      (fun (k : ℕ) => startT + (k : ℚ) * step)
  else []

/-- The scan loop of `_compute_passes_for_sat` over the samples, with
the satellite's elevation curve `el` (Skyfield is external to the
embedding).  State `some (pass_start, pass_peak, pass_peak_el)` is
`in_pass`; crossing below the threshold at sample `t` closes the
interval at `t`. -/
def scanPasses (minEl : ℚ) (el : ℚ → ℚ) :
    List ℚ → Option (ℚ × ℚ × ℚ) → List PassInterval × Option (ℚ × ℚ × ℚ)
  | [], st => ([], st)
  | t :: ts, st =>
    if minEl ≤ el t then
      match st with
      | none => scanPasses minEl el ts (some (t, t, el t))
      | some (s0, p0, pe0) =>
        scanPasses minEl el ts (some (if pe0 < el t then (s0, t, el t) else (s0, p0, pe0)))
    else
      match st with
      | none => scanPasses minEl el ts none
      | some (s0, p0, pe0) =>
        let r := scanPasses minEl el ts none
        (⟨s0, p0, t, pe0⟩ :: r.1, r.2)

/-- `_compute_passes_for_sat`: scan the window; if still in a pass at
the end of the samples, close the interval at `end_dt`. -/
def computePassesForSat (el : ℚ → ℚ) (startT endT step minEl : ℚ) : List PassInterval :=
  let r := scanPasses minEl el (sampleTimes startT endT step) none
  match r.2 with
  | some (s0, p0, pe0) => r.1 ++ [⟨s0, p0, endT, pe0⟩]
  | none => r.1

/-- `compute_pass_visibility_for_file` for one satellite: scan from
`now − look_back` to `now + window` and keep only passes whose peak is
at or after `now`. -/
def reportedPasses (el : ℚ → ℚ) (now lookBack window step minEl : ℚ) : List PassInterval :=
  (computePassesForSat el (now - lookBack) (now + window) step minEl).filter
    (fun P => decide (now ≤ P.tPeak))

/-! ## tle_to_kep.py — the Kepler-equation solver

`ConvertTLEToKepElem` solves `M = E − e·sin E` per sample with
`scipy.optimize.newton(KeplerEquation, M[i], fprime=DKeplerEquation,
args=(M[i], ecc))`, i.e. Newton–Raphson seeded at the wrapped mean
anomaly with scipy's defaults `tol = 1.48e-8` and `maxiter = 50`; a
zero residual returns immediately, a zero derivative or an exhausted
iteration budget raises (an uncaught `RuntimeError`).  The reals make
these definitions noncomputable; the branch tests use the classical
order on `ℝ`. -/

/-- `KeplerEquation(E, M, ecc) = M - (E - ecc*sin(E))`. -/
noncomputable def kepF (M ecc E : ℝ) : ℝ := M - (E - ecc * Real.sin E)

/-- `DKeplerEquation(E, M, ecc) = -1.0 + ecc*cos(E)`. -/
noncomputable def kepDF (ecc E : ℝ) : ℝ := -1 + ecc * Real.cos E

/-- scipy's default Newton step tolerance `tol = 1.48e-8`. -/
noncomputable def newtonTol : ℝ := 148 / 10 ^ 10

/-- The Newton iteration of `scipy.optimize.newton` specialised to the
Kepler equation: stop on a zero residual, fail on a zero derivative,
accept once the step is below `tol`, and fail (`RuntimeError`) when the
iteration budget runs out. -/
noncomputable def newtonLoop (M ecc : ℝ) : ℕ → ℝ → Option ℝ
  | 0, _ => none
  | n + 1, p0 =>
    if kepF M ecc p0 = 0 then some p0
    else if kepDF ecc p0 = 0 then none
    else
      let p := p0 - kepF M ecc p0 / kepDF ecc p0
      if |p - p0| < newtonTol then some p
      else newtonLoop M ecc n p

/-- One sample of the solver loop in `ConvertTLEToKepElem`: seeded at
`M[i]`, `maxiter = 50`. -/
noncomputable def solveKepler (M ecc : ℝ) : Option ℝ := newtonLoop M ecc 50 M

/-- The `for i in range(M.size)` loop building `E_arr`: sequential, and
an exception at any sample propagates, losing every sample of the
batch. -/
noncomputable def solveKeplerBatch (Ms : List ℝ) (ecc : ℝ) : Option (List ℝ) :=
  match Ms with
  | [] => some []
  | M :: rest =>
    match solveKepler M ecc with
    | none => none
    | some E =>
      match solveKeplerBatch rest ecc with
      | none => none
      | some Es => some (E :: Es)

/-! ## Claim C1 — propagation times before the element epoch -/

/-- C1, counterexample: the claim says a requested time that precedes
the element epoch is rejected with `InvalidTimeRange` and only that
sample is dropped.  On this input every requested day (50 through 60 of
2023) precedes the epoch day 100, yet `GenerateTimeVec` rejects
nothing: it returns the full vector with the start silently clamped to
the epoch, and the samples 90, 80, 70, 60 — all still before the epoch
— are produced and handed to the propagator. -/
theorem c1_counterexample :
    generateTimeVec 5 ⟨2023, 2, 19, 0, 0, 0⟩ ⟨2023, 3, 1, 0, 0, 0⟩ 23 100 =
      some ([100, 90, 80, 70, 60], 2023) ∧
    dateToNthDay ⟨2023, 2, 19, 0, 0, 0⟩ < 100 ∧
    dateToNthDay ⟨2023, 3, 1, 0, 0, 0⟩ < 100 :=
  of_decide_eq_true (by with_unfolding_all rfl)

/-- C1, amended: a requested start before the epoch is not rejected;
`GenerateTimeVec` silently clamps the start day up to the epoch day and
returns the whole `num_time_pts`-sample vector from the epoch day to
the requested end day (no per-sample `InvalidTimeRange` exists in the
code). -/
theorem c1_clamped_not_rejected (numTimePts : ℕ) (startT endT : Ymdhms)
    (ey : ℤ) (ed : ℚ)
    (hle : dateToNthDay startT ≤ dateToNthDay endT)
    (hpre : dateToNthDay startT < ed) :
    generateTimeVec numTimePts startT endT ey ed =
      some (linspace ed (dateToNthDay endT) numTimePts, normalizeEpochYear ey) := by
  rw [generateTimeVec_eq_some numTimePts startT endT ey ed hle, max_eq_right hpre.le]

/-- C1 witness: the amended theorem evaluated on the counterexample's
input. -/
theorem c1_clamped_not_rejected_witness :
    dateToNthDay ⟨2023, 2, 19, 0, 0, 0⟩ ≤ dateToNthDay ⟨2023, 3, 1, 0, 0, 0⟩ ∧
    dateToNthDay ⟨2023, 2, 19, 0, 0, 0⟩ < 100 ∧
    generateTimeVec 5 ⟨2023, 2, 19, 0, 0, 0⟩ ⟨2023, 3, 1, 0, 0, 0⟩ 23 100 =
      some (linspace 100 (dateToNthDay ⟨2023, 3, 1, 0, 0, 0⟩) 5, normalizeEpochYear 23) :=
  ⟨of_decide_eq_true (by with_unfolding_all rfl),
   of_decide_eq_true (by with_unfolding_all rfl),
   c1_clamped_not_rejected 5 ⟨2023, 2, 19, 0, 0, 0⟩ ⟨2023, 3, 1, 0, 0, 0⟩ 23 100
     (of_decide_eq_true (by with_unfolding_all rfl))
     (of_decide_eq_true (by with_unfolding_all rfl))⟩

/-! ## Claim C2 — Kepler solver failure semantics -/

/-- C2: the Kepler solver is Newton–Raphson seeded at the wrapped mean
anomaly with derivative `ecc·cos E − 1` and at most 50 iterations
(`newtonLoop`/`solveKepler` above embed exactly that call), but when a
sample fails to converge the failure is NOT confined to that sample:
the uncaught exception aborts the whole `E_arr` loop, so the batch
yields no results at all.  This theorem evaluates that abort semantics:
one failing sample makes the entire batch come back empty-handed. -/
theorem c2_kepler_failure_aborts_batch (Ms : List ℝ) (ecc M : ℝ)
    (hM : M ∈ Ms) (hfail : solveKepler M ecc = none) :
    solveKeplerBatch Ms ecc = none := by
  induction Ms with
  | nil => cases hM
  | cons M0 rest ih =>
    rcases List.mem_cons.mp hM with rfl | hmem
    · unfold solveKeplerBatch
      rw [hfail]
    · unfold solveKeplerBatch
      cases h0 : solveKepler M0 ecc with
      | none => rfl
      | some E => rw [ih hmem]

theorem newtonLoop_succ (M ecc : ℝ) (n : ℕ) (p0 : ℝ) :
    newtonLoop M ecc (n + 1) p0 =
      if kepF M ecc p0 = 0 then some p0
      else if kepDF ecc p0 = 0 then none
      else
        if |p0 - kepF M ecc p0 / kepDF ecc p0 - p0| < newtonTol
        then some (p0 - kepF M ecc p0 / kepDF ecc p0)
        else newtonLoop M ecc n (p0 - kepF M ecc p0 / kepDF ecc p0) := rfl

/-- C2 witness: at `ecc = 2` the first Newton step hits a zero
derivative (`-1 + 2·cos(π/3) = 0` with a nonzero residual `√3`), so the
`π/3` sample fails and the batch containing the perfectly convergent
sample `M = 0` is lost whole. -/
theorem c2_kepler_failure_aborts_batch_witness :
    solveKepler (Real.pi / 3) 2 = none ∧
    solveKeplerBatch [0, Real.pi / 3] 2 = none := by
  have hF : kepF (Real.pi / 3) 2 (Real.pi / 3) ≠ 0 := by
    have h3 : kepF (Real.pi / 3) 2 (Real.pi / 3) = Real.sqrt 3 := by
      unfold kepF
      rw [Real.sin_pi_div_three]
      ring
    rw [h3]
    exact (Real.sqrt_pos.mpr (by norm_num)).ne'
  have hD : kepDF 2 (Real.pi / 3) = 0 := by
    unfold kepDF
    rw [Real.cos_pi_div_three]
    norm_num
  have hfail : solveKepler (Real.pi / 3) 2 = none := by
    show newtonLoop (Real.pi / 3) 2 (49 + 1) (Real.pi / 3) = none
    rw [newtonLoop_succ, if_neg hF, if_pos hD]
  exact ⟨hfail, c2_kepler_failure_aborts_batch _ _ _ (by simp) hfail⟩

/-! ## Claim C3 — malformed element triples -/

/-- C3, counterexample: the claim says a malformed element-line triple
is skipped and the parser still returns the well-formed triples.  Here
the first triple's line 1 has too few fields (`split_line[3]` raises
`IndexError`), and the whole parse dies: the perfectly well-formed
ISS record that follows is lost and nothing is returned. -/
theorem c3_counterexample :
    parseTLELines
      ["BADSAT",
       "1 25544U",
       "2 25544  51.6431 294.3246 0005576  54.8435  59.0689 15.50052960398583",
       "ISS (ZARYA)",
       "1 25544U 98067A   23140.61002778  .00000266  00000-0  14404-4 0  9995",
       "2 25544  51.6431 294.3246 0005576  54.8435  59.0689 15.50052960398583"] = none :=
  of_decide_eq_true (by with_unfolding_all rfl)

/-- C3, amended: `ParseTwoLineElementFile` never checks the line
identifiers — a triple whose element lines carry the wrong prefixes
(`"Q …"`, `"Z …"` instead of `"1 "`, `"2 "`) but enough fields is
parsed and stored rather than skipped (with the implicit decimal point
reinserted into the eccentricity) — while an element line with missing
fields aborts the entire parse (uncaught exception), losing every
record, including the well-formed ISS triple later in the input; a
well-formed input parses. -/
theorem c3_no_validation_fatal_triples :
    parseTLELines ["X", "Q 1 2 23.5 .5", "Z 0 1 2 3 4 5 6"] =
      some [("X", ⟨23, 1/2, 1, 2, 3/10, 4, 5, 6, 1/2⟩)] ∧
    parseTLELines
      ["BADSAT",
       "1 25544U",
       "2 25544  51.6431 294.3246 0005576  54.8435  59.0689 15.50052960398583",
       "ISS (ZARYA)",
       "1 25544U 98067A   23140.61002778  .00000266  00000-0  14404-4 0  9995",
       "2 25544  51.6431 294.3246 0005576  54.8435  59.0689 15.50052960398583"] = none ∧
    (parseTLELines
      ["ISS (ZARYA)",
       "1 25544U 98067A   23140.61002778  .00000266  00000-0  14404-4 0  9995",
       "2 25544  51.6431 294.3246 0005576  54.8435  59.0689 15.50052960398583"]).map
        (fun l => l.map Prod.fst) = some ["ISS"] :=
  of_decide_eq_true (by with_unfolding_all rfl)

/-! ## Claim C4 — no core error terminates the process -/

/-- C4, counterexample: `GenerateTimeVec` calls `sys.exit()` — modelled
as `none` — when the converted start day exceeds the end day, so a core
error does terminate the process, contradicting the claim. -/
theorem c4_counterexample :
    generateTimeVec 5 ⟨2023, 3, 1, 0, 0, 0⟩ ⟨2023, 2, 19, 0, 0, 0⟩ 23 10 = none :=
  of_decide_eq_true (by with_unfolding_all rfl)

/-- C4, amended: time-vector construction terminates the process
exactly when the converted start day exceeds the end day (the
`sys.exit()` path); serial transmission, by contrast, matches the
claim: `write_cmd` retries failed attempts and, when every attempt has
failed, surfaces the failure as an empty reply for that tick instead of
raising. -/
theorem c4_exit_iff_and_serial_total :
    (∀ (numTimePts : ℕ) (startT endT : Ymdhms) (ey : ℤ) (ed : ℚ),
      (generateTimeVec numTimePts startT endT ey ed).isSome ↔
        dateToNthDay startT ≤ dateToNthDay endT) ∧
    (∀ (oracle : ℕ → Except Unit String) (expectReply : Bool) (retries : ℕ),
      (∀ i, oracle i = Except.error ()) →
      writeCmd oracle expectReply retries = "") := by
  refine ⟨generateTimeVec_isSome_iff, ?_⟩
  intro oracle expectReply retries h
  exact writeCmdFrom_all_fail oracle expectReply (retries + 1) 0 h

/-- C4 witness: the start-after-end input exits (`none`), and a link
whose writes always fail yields an empty reply, not an exception. -/
theorem c4_exit_iff_and_serial_total_witness :
    ¬ (generateTimeVec 5 ⟨2023, 3, 1, 0, 0, 0⟩ ⟨2023, 2, 19, 0, 0, 0⟩ 23 10).isSome ∧
    writeCmd (fun _ => Except.error ()) true 3 = "" := by
  constructor
  · intro h
    have h2 := (c4_exit_iff_and_serial_total.1 5 ⟨2023, 3, 1, 0, 0, 0⟩
      ⟨2023, 2, 19, 0, 0, 0⟩ 23 10).mp h
    have h3 : ¬ (dateToNthDay (⟨2023, 3, 1, 0, 0, 0⟩ : Ymdhms) ≤
        dateToNthDay (⟨2023, 2, 19, 0, 0, 0⟩ : Ymdhms)) :=
      of_decide_eq_true (by with_unfolding_all rfl)
    exact h3 h2
  · exact c4_exit_iff_and_serial_total.2 (fun _ => Except.error ()) true 3 (fun _ => rfl)

/-! ## Claim C8 — device reply parsing -/

/-- C8, counterexample: the claim says the labeled reply
`"AZ: 180 EL: 90"` is recovered as azimuth 180, elevation 90; in fact
`parse_c2` only understands the delimited form and returns `None`
(`float` raises inside the `try`, which is swallowed) for the labeled
form. -/
theorem c8_counterexample :
    parseC2 "AZ: 180 EL: 90" = none ∧
    parseC2 "AZ: 180 EL: 90" ≠ some (180, 90) :=
  of_decide_eq_true (by with_unfolding_all rfl)

/-- C8, amended: `parse_c2` recovers the delimited numeric pair
(`"+0180+0090"` → `(180, 90)`, also without the zero padding), while
the labeled pair `"AZ: 180 EL: 90"` and any other unrecognized reply
yield `None` — no reply raises an error. -/
theorem c8_reply_parsing :
    parseC2 "+0180+0090" = some (180, 90) ∧
    parseC2 "+180+090" = some (180, 90) ∧
    parseC2 "AZ: 180 EL: 90" = none ∧
    parseC2 "hello, rotator" = none ∧
    parseC2 "short" = none :=
  of_decide_eq_true (by with_unfolding_all rfl)

/-! ## Claim C10 — GenerateTimeVec invariants -/

/-- C10: whenever `GenerateTimeVec` returns (it returns exactly when
the converted start day does not exceed the end day), the vector has
exactly `num_time_pts` evenly spaced samples, and its first sample is
at least the element-epoch day-of-year: a start earlier than the epoch
is silently clamped up to the epoch. -/
theorem c10_timevec_invariants (numTimePts : ℕ) (startT endT : Ymdhms)
    (ey : ℤ) (ed : ℚ) (tv : List ℚ) (y : ℤ)
    (h : generateTimeVec numTimePts startT endT ey ed = some (tv, y)) :
    tv.length = numTimePts ∧
    (∃ d, ∀ i, (hi : i + 1 < tv.length) → tv[i + 1] - tv[i] = d) ∧
    (∀ x, tv.head? = some x → ed ≤ x) := by
  have hle : dateToNthDay startT ≤ dateToNthDay endT := by
    have := (generateTimeVec_isSome_iff numTimePts startT endT ey ed).mp
    rw [h] at this
    exact this rfl
  rw [generateTimeVec_eq_some numTimePts startT endT ey ed hle] at h
  have htv : tv = linspace (max (dateToNthDay startT) ed) (dateToNthDay endT) numTimePts := by
    injection h with h1
    injection h1 with h2 h3
    exact h2.symm
  subst htv
  refine ⟨linspace_length _ _ _, linspace_evenly_spaced _ _ _, ?_⟩
  intro x hx
  rcases Nat.eq_zero_or_pos numTimePts with h0 | hpos
  · rw [h0] at hx
    simp [linspace] at hx
  · rw [linspace_head _ _ _ hpos] at hx
    injection hx with hx
    rw [← hx]
    exact le_max_right _ _

/-- C10 witness: a concrete call where the start day 50 already follows
the epoch day 40; the five samples are evenly spaced and start at 50. -/
theorem c10_timevec_invariants_witness :
    generateTimeVec 5 ⟨2023, 2, 19, 0, 0, 0⟩ ⟨2023, 3, 1, 0, 0, 0⟩ 23 40 =
      some ([50, 105/2, 55, 115/2, 60], 2023) ∧
    (([50, 105/2, 55, 115/2, 60] : List ℚ).length = 5 ∧
      (∃ d, ∀ i, (hi : i + 1 < ([50, 105/2, 55, 115/2, 60] : List ℚ).length) →
        ([50, 105/2, 55, 115/2, 60] : List ℚ)[i + 1] -
          ([50, 105/2, 55, 115/2, 60] : List ℚ)[i] = d) ∧
      (∀ x, ([50, 105/2, 55, 115/2, 60] : List ℚ).head? = some x → (40 : ℚ) ≤ x)) := by
  have h : generateTimeVec 5 ⟨2023, 2, 19, 0, 0, 0⟩ ⟨2023, 3, 1, 0, 0, 0⟩ 23 40 =
      some ([50, 105/2, 55, 115/2, 60], 2023) :=
    of_decide_eq_true (by with_unfolding_all rfl)
  exact ⟨h, c10_timevec_invariants 5 ⟨2023, 2, 19, 0, 0, 0⟩ ⟨2023, 3, 1, 0, 0, 0⟩
    23 40 [50, 105/2, 55, 115/2, 60] 2023 h⟩

/-! ## Claim C5 — azimuth continuity (unwrap) -/

/-- C5, counterexample: the claim asserts the unwrapped azimuth is
within 180° of the previous smoothed azimuth for every previous value
`p`; with `p = 1000` and raw azimuth `0` the nearest candidate is `360`,
which is 640° away. -/
theorem c5_counterexample :
    unwrapAz (some 1000) 0 = 360 ∧ ¬ (|unwrapAz (some 1000) 0 - 1000| ≤ 180) :=
  of_decide_eq_true (by with_unfolding_all rfl)

/-- C5, amended: `unwrap_az` returns the candidate among
`{a, a+360, a−360}` nearest to the previous smoothed azimuth `p` (so
the result is congruent to `a` modulo 360), and it is within 180° of
`p` provided `p ∈ [−180, 540]` (not for arbitrary `p`); a controller
ticked with the raw azimuth sequence `[359, 1, 3]` across the 0°/360°
wrap produces a strictly increasing smoothed azimuth sequence. -/
theorem c5_unwrap_nearest_and_monotone (p a : ℚ) :
    (unwrapAz (some p) a = a ∨ unwrapAz (some p) a = a + 360 ∨
      unwrapAz (some p) a = a - 360) ∧
    (|unwrapAz (some p) a - p| ≤ |a - p| ∧
      |unwrapAz (some p) a - p| ≤ |a + 360 - p| ∧
      |unwrapAz (some p) a - p| ≤ |a - 360 - p|) ∧
    (0 ≤ a → a < 360 → -180 ≤ p → p ≤ 540 → |unwrapAz (some p) a - p| ≤ 180) ∧
    (∃ a1 a2 a3 : ℚ,
      (tick initState 100 359 45).1.smoothedAz = some a1 ∧
      (tick (tick initState 100 359 45).1 101 1 45).1.smoothedAz = some a2 ∧
      (tick (tick (tick initState 100 359 45).1 101 1 45).1 102 3 45).1.smoothedAz
        = some a3 ∧
      a1 < a2 ∧ a2 < a3) := by
  have hmain :
      (unwrapAz (some p) a = a ∨ unwrapAz (some p) a = a + 360 ∨
        unwrapAz (some p) a = a - 360) ∧
      (|unwrapAz (some p) a - p| ≤ |a - p| ∧
        |unwrapAz (some p) a - p| ≤ |a + 360 - p| ∧
        |unwrapAz (some p) a - p| ≤ |a - 360 - p|) := by
    simp only [unwrapAz]
    split_ifs with h1 h2 h3
    · exact ⟨Or.inr (Or.inr rfl), h2.le.trans h1.le, h2.le, le_refl _⟩
    · exact ⟨Or.inr (Or.inl rfl), h1.le, le_refl _, not_lt.mp h2⟩
    · exact ⟨Or.inr (Or.inr rfl), h3.le, h3.le.trans (not_lt.mp h1), le_refl _⟩
    · exact ⟨Or.inl rfl, le_refl _, not_lt.mp h1, not_lt.mp h3⟩
  refine ⟨hmain.1, hmain.2, ?_, ?_⟩
  · intro ha0 ha360 hp1 hp2
    rcases le_or_lt p (a + 180) with hple | hpgt
    · rcases le_or_lt (a - 180) p with hpge | hplt
      · exact hmain.2.1.trans (abs_le.mpr ⟨by linarith, by linarith⟩)
      · exact hmain.2.2.2.trans (abs_le.mpr ⟨by linarith, by linarith⟩)
    · exact hmain.2.2.1.trans (abs_le.mpr ⟨by linarith, by linarith⟩)
  · exact ⟨359, 361, 363,
      of_decide_eq_true (by with_unfolding_all rfl),
      of_decide_eq_true (by with_unfolding_all rfl),
      of_decide_eq_true (by with_unfolding_all rfl),
      by norm_num, by norm_num⟩

/-- C5 witness: the amended theorem at `p = 10`, `a = 350` (motion just
across the wrap): the unwrapped value is within 180° of `p`. -/
theorem c5_unwrap_nearest_and_monotone_witness :
    (0 : ℚ) ≤ 350 ∧ (350 : ℚ) < 360 ∧ (-180 : ℚ) ≤ 10 ∧ (10 : ℚ) ≤ 540 ∧
    |unwrapAz (some 10) 350 - 10| ≤ 180 :=
  ⟨by norm_num, by norm_num, by norm_num, by norm_num,
   (c5_unwrap_nearest_and_monotone 10 350).2.2.1
     (by norm_num) (by norm_num) (by norm_num) (by norm_num)⟩

/-! ## Claims C6 and C9 — deadband gating and last-sent bookkeeping -/

theorem tick_sent_last (s : CtrlState) (now az el a e : ℚ)
    (h : (tick s now az el).2 = TickOutcome.sent a e) :
    (tick s now az el).1.lastAz = some a ∧ (tick s now az el).1.lastEl = some e := by
  rcases htick : tick s now az el with ⟨s2, o⟩
  rw [htick] at h
  simp only [tick] at htick
  split_ifs at htick with h1 h2 h3
  · injection htick with hs ho
    rw [← ho] at h
    exact TickOutcome.noConfusion h
  · injection htick with hs ho
    rw [← ho] at h
    exact TickOutcome.noConfusion h
  · injection htick with hs ho
    rw [← ho] at h
    exact TickOutcome.noConfusion h
  · injection htick with hs ho
    rw [← ho] at h
    injection h with ha he
    subst ha
    subst he
    rw [← hs]
    exact ⟨rfl, rfl⟩

/-- C6: for consecutive above-horizon ticks, if the first tick actually
sent a command and the second tick's quantized targets are within the
per-axis deadbands of that command, the second tick reports an explicit
deadband skip — it never reaches the send branch. -/
theorem c6_deadband_skip (s0 : CtrlState) (now1 az1 el1 now2 az2 el2 a e : ℚ)
    (h1 : (tick s0 now1 az1 el1).2 = TickOutcome.sent a e)
    (hel : 0 ≤ el2)
    (hdb1 : |(tickTargets (tick s0 now1 az1 el1).1 now2 az2 el2).1 - a| < AZ_DEADBAND)
    (hdb2 : |(tickTargets (tick s0 now1 az1 el1).1 now2 az2 el2).2 - e| < EL_DEADBAND) :
    (tick (tick s0 now1 az1 el1).1 now2 az2 el2).2 =
      TickOutcome.skipDeadband
        (tickTargets (tick s0 now1 az1 el1).1 now2 az2 el2).1
        (tickTargets (tick s0 now1 az1 el1).1 now2 az2 el2).2 := by
  obtain ⟨hA, hE⟩ := tick_sent_last s0 now1 az1 el1 a e h1
  set s1 := (tick s0 now1 az1 el1).1 with hs1
  have hdb : deadbandHit s1 (tickTargets s1 now2 az2 el2).1
      (tickTargets s1 now2 az2 el2).2 = true := by
    unfold deadbandHit
    rw [hA, hE]
    simp only [Bool.and_eq_true, decide_eq_true_eq]
    exact ⟨hdb1, hdb2⟩
  show (tick s1 now2 az2 el2).2 = _
  unfold tick
  rw [if_neg (not_lt.mpr hel), if_pos hdb]

/-- C6 witness: a first tick from the initial state sends `(180, 45)`;
a second tick two seconds later with raw azimuth 180.1° and the same
elevation quantizes back onto the sent command and is skipped. -/
theorem c6_deadband_skip_witness :
    (tick initState 100 180 45).2 = TickOutcome.sent 180 45 ∧
    (tick (tick initState 100 180 45).1 102 (1801/10) 45).2 =
      TickOutcome.skipDeadband
        (tickTargets (tick initState 100 180 45).1 102 (1801/10) 45).1
        (tickTargets (tick initState 100 180 45).1 102 (1801/10) 45).2 := by
  have hsent : (tick initState 100 180 45).2 = TickOutcome.sent 180 45 :=
    of_decide_eq_true (by with_unfolding_all rfl)
  exact ⟨hsent,
    c6_deadband_skip initState 100 180 45 102 (1801/10) 45 180 45 hsent
      (by norm_num)
      (of_decide_eq_true (by with_unfolding_all rfl))
      (of_decide_eq_true (by with_unfolding_all rfl))⟩

/-- C9: the last-sent command and the last-send timestamp change only
when a tick actually sends: a holding tick, a deadband-skip tick and a
rate-limit-skip tick all leave them untouched (only a send can produce
the `sent` outcome, and every send carries the tick's own targets). -/
theorem c9_last_sent_only_on_send (s : CtrlState) (now az el : ℚ)
    (h : (tick s now az el).2 ≠
      TickOutcome.sent (tickTargets s now az el).1 (tickTargets s now az el).2) :
    (tick s now az el).1.lastAz = s.lastAz ∧
    (tick s now az el).1.lastEl = s.lastEl ∧
    (tick s now az el).1.lastSentTime = s.lastSentTime := by
  rcases htick : tick s now az el with ⟨s2, o⟩
  rw [htick] at h
  simp only [tick] at htick
  split_ifs at htick with h1 h2 h3
  · injection htick with hs ho
    rw [← hs]
    exact ⟨rfl, rfl, rfl⟩
  · injection htick with hs ho
    rw [← hs]
    exact ⟨rfl, rfl, rfl⟩
  · injection htick with hs ho
    rw [← hs]
    exact ⟨rfl, rfl, rfl⟩
  · injection htick with hs ho
    rw [← ho] at h
    exact absurd rfl h

/-- C9 witness: a below-horizon (holding) tick leaves the last-sent
state and timestamp untouched. -/
theorem c9_last_sent_only_on_send_witness :
    (tick initState 5 10 (-5)).1.lastAz = initState.lastAz ∧
    (tick initState 5 10 (-5)).1.lastEl = initState.lastEl ∧
    (tick initState 5 10 (-5)).1.lastSentTime = initState.lastSentTime :=
  c9_last_sent_only_on_send initState 5 10 (-5)
    (of_decide_eq_true (by with_unfolding_all rfl))

/-! ## Claim C7 — pass-interval invariants -/

theorem sampleTimes_mem_le (startT endT step : ℚ) (hs : 0 < step) :
    ∀ t ∈ sampleTimes startT endT step, t ≤ endT := by
  intro t ht
  unfold sampleTimes at ht
  split at ht
  case isTrue hle =>
    simp only [List.mem_map, List.mem_range] at ht
    obtain ⟨k, hk, rfl⟩ := ht
    have hq : 0 ≤ (endT - startT) / step := div_nonneg (by linarith) hs.le
    have hf0 : 0 ≤ ⌊(endT - startT) / step⌋ := Int.floor_nonneg.mpr hq
    have hk2 : (k : ℤ) ≤ ⌊(endT - startT) / step⌋ := by
      have : k ≤ ⌊(endT - startT) / step⌋.toNat := Nat.lt_succ_iff.mp hk
      omega
    have hk3 : (k : ℚ) ≤ (endT - startT) / step := by
      calc (k : ℚ) ≤ (⌊(endT - startT) / step⌋ : ℚ) := by exact_mod_cast hk2
        _ ≤ (endT - startT) / step := Int.floor_le _
    have hmul : (k : ℚ) * step ≤ endT - startT := by
      have h2 := mul_le_mul_of_nonneg_right hk3 hs.le
      rwa [div_mul_cancel₀ _ hs.ne'] at h2
    linarith
  case isFalse => simp at ht

theorem sampleTimes_pairwise (startT endT step : ℚ) (hs : 0 ≤ step) :
    (sampleTimes startT endT step).Pairwise (· ≤ ·) := by
  unfold sampleTimes
  split
  · refine List.pairwise_map.mpr ?_
    refine (List.sorted_lt_range _).imp ?_
    intro i j hij
    have : (i : ℚ) ≤ (j : ℚ) := by exact_mod_cast hij.le
    have := mul_le_mul_of_nonneg_right this hs
    linarith
  · exact List.Pairwise.nil

theorem scanPasses_nil (minEl : ℚ) (el : ℚ → ℚ) (st : Option (ℚ × ℚ × ℚ)) :
    scanPasses minEl el [] st = ([], st) := rfl

theorem scanPasses_cons (minEl : ℚ) (el : ℚ → ℚ) (t : ℚ) (ts : List ℚ)
    (st : Option (ℚ × ℚ × ℚ)) :
    scanPasses minEl el (t :: ts) st =
      if minEl ≤ el t then
        match st with
        | none => scanPasses minEl el ts (some (t, t, el t))
        | some (s0, p0, pe0) =>
          scanPasses minEl el ts
            (some (if pe0 < el t then (s0, t, el t) else (s0, p0, pe0)))
      else
        match st with
        | none => scanPasses minEl el ts none
        | some (s0, p0, pe0) =>
          ((⟨s0, p0, t, pe0⟩ : PassInterval) :: (scanPasses minEl el ts none).1,
            (scanPasses minEl el ts none).2) := by
  rw [scanPasses.eq_def]

theorem scanPasses_spec (minEl : ℚ) (el : ℚ → ℚ) (B : ℚ) :
    ∀ (ts : List ℚ) (st : Option (ℚ × ℚ × ℚ)),
      (∀ t ∈ ts, t ≤ B) →
      ts.Pairwise (· ≤ ·) →
      (∀ s0 p0 pe0, st = some (s0, p0, pe0) →
        s0 ≤ p0 ∧ minEl ≤ pe0 ∧ p0 ≤ B ∧ ∀ t ∈ ts, p0 ≤ t) →
      (∀ P ∈ (scanPasses minEl el ts st).1,
        P.tStart ≤ P.tPeak ∧ P.tPeak ≤ P.tEnd ∧ minEl ≤ P.maxEl) ∧
      (∀ s0 p0 pe0, (scanPasses minEl el ts st).2 = some (s0, p0, pe0) →
        s0 ≤ p0 ∧ minEl ≤ pe0 ∧ p0 ≤ B) := by
  intro ts
  induction ts with
  | nil =>
    intro st hB hsort hst
    rw [scanPasses_nil]
    constructor
    · intro P hP
      simp at hP
    · intro s0 p0 pe0 hfin
      obtain ⟨i1, i2, i3, _⟩ := hst s0 p0 pe0 hfin
      exact ⟨i1, i2, i3⟩
  | cons t ts ih =>
    intro st hB hsort hst
    have hBtail : ∀ u ∈ ts, u ≤ B := fun u hu => hB u (List.mem_cons_of_mem t hu)
    have hBhead : t ≤ B := hB t (List.mem_cons_self t ts)
    have hsorttail : ts.Pairwise (· ≤ ·) := (List.pairwise_cons.mp hsort).2
    have hhead : ∀ u ∈ ts, t ≤ u := (List.pairwise_cons.mp hsort).1
    rw [scanPasses_cons]
    split
    case isTrue habove =>
      cases st with
      | none =>
        apply ih (some (t, t, el t)) hBtail hsorttail
        intro s0 p0 pe0 heq
        simp only [Option.some.injEq, Prod.mk.injEq] at heq
        obtain ⟨rfl, rfl, rfl⟩ := heq
        exact ⟨le_refl _, habove, hBhead, hhead⟩
      | some trip =>
        obtain ⟨s0, p0, pe0⟩ := trip
        obtain ⟨i1, i2, i3, i4⟩ := hst s0 p0 pe0 rfl
        apply ih _ hBtail hsorttail
        intro s1 p1 pe1 heq
        split at heq
        case isTrue hlt =>
          simp only [Option.some.injEq, Prod.mk.injEq] at heq
          obtain ⟨rfl, rfl, rfl⟩ := heq
          exact ⟨i1.trans (i4 t (List.mem_cons_self t ts)), habove, hBhead, hhead⟩
        case isFalse hge =>
          simp only [Option.some.injEq, Prod.mk.injEq] at heq
          obtain ⟨rfl, rfl, rfl⟩ := heq
          exact ⟨i1, i2, i3, fun u hu => i4 u (List.mem_cons_of_mem t hu)⟩
    case isFalse hbelow =>
      cases st with
      | none =>
        apply ih none hBtail hsorttail
        intro s0 p0 pe0 heq
        exact absurd heq (by simp)
      | some trip =>
        obtain ⟨s0, p0, pe0⟩ := trip
        obtain ⟨i1, i2, i3, i4⟩ := hst s0 p0 pe0 rfl
        have ihres := ih none hBtail hsorttail (fun s1 p1 pe1 heq => absurd heq (by simp))
        constructor
        · intro P hP
          rcases List.mem_cons.mp hP with rfl | hP2
          · exact ⟨i1, i4 t (List.mem_cons_self t ts), i2⟩
          · exact ihres.1 P hP2
        · exact ihres.2

theorem computePassesForSat_eq (el : ℚ → ℚ) (startT endT step minEl : ℚ) :
    computePassesForSat el startT endT step minEl =
      match (scanPasses minEl el (sampleTimes startT endT step) none).2 with
      | some (s0, p0, pe0) =>
        (scanPasses minEl el (sampleTimes startT endT step) none).1
          ++ [⟨s0, p0, endT, pe0⟩]
      | none => (scanPasses minEl el (sampleTimes startT endT step) none).1 := rfl

theorem computePasses_good (el : ℚ → ℚ) (startT endT step minEl : ℚ)
    (hstep : 0 < step) :
    ∀ P ∈ computePassesForSat el startT endT step minEl,
      P.tStart ≤ P.tPeak ∧ P.tPeak ≤ P.tEnd ∧ minEl ≤ P.maxEl := by
  intro P hP
  have hspec := scanPasses_spec minEl el endT (sampleTimes startT endT step) none
    (sampleTimes_mem_le startT endT step hstep)
    (sampleTimes_pairwise startT endT step hstep.le)
    (fun s0 p0 pe0 heq => absurd heq (by simp))
  rw [computePassesForSat_eq] at hP
  split at hP
  case h_1 s0 p0 pe0 hfin =>
    rcases List.mem_append.mp hP with hP1 | hP2
    · exact hspec.1 P hP1
    · obtain ⟨i1, i2, i3⟩ := hspec.2 s0 p0 pe0 hfin
      rcases List.mem_singleton.mp hP2 with rfl
      exact ⟨i1, i3, i2⟩
  case h_2 hfin =>
    exact hspec.1 P hP

theorem scanPasses_final_isSome (minEl : ℚ) (el : ℚ → ℚ) :
    ∀ (ts : List ℚ) (st : Option (ℚ × ℚ × ℚ)) (tLast : ℚ),
      ts.getLast? = some tLast → minEl ≤ el tLast →
      ((scanPasses minEl el ts st).2).isSome := by
  intro ts
  induction ts with
  | nil =>
    intro st tLast hlast
    simp at hlast
  | cons t ts ih =>
    intro st tLast hlast habove
    rw [scanPasses_cons]
    cases ts with
    | nil =>
      simp only [List.getLast?_singleton, Option.some.injEq] at hlast
      subst hlast
      rw [if_pos habove]
      cases st with
      | none => rfl
      | some trip =>
        obtain ⟨s0, p0, pe0⟩ := trip
        rfl
    | cons t2 ts2 =>
      rw [List.getLast?_cons_cons] at hlast
      split
      · cases st with
        | none => exact ih _ tLast hlast habove
        | some trip =>
          obtain ⟨s0, p0, pe0⟩ := trip
          exact ih _ tLast hlast habove
      · cases st with
        | none => exact ih _ tLast hlast habove
        | some trip =>
          obtain ⟨s0, p0, pe0⟩ := trip
          exact ih _ tLast hlast habove

/-- C7: every pass interval reported by the visibility scan has
`start ≤ peak ≤ end` and a peak elevation at or above the threshold;
only intervals whose peak is at or after `now` are reported; and when
the satellite is still above the threshold at the last sampled instant,
the scan's last interval is closed exactly at the window end. -/
theorem c7_pass_intervals (el : ℚ → ℚ) (now lookBack window step minEl : ℚ)
    (hstep : 0 < step) :
    (∀ P ∈ reportedPasses el now lookBack window step minEl,
      P.tStart ≤ P.tPeak ∧ P.tPeak ≤ P.tEnd ∧ minEl ≤ P.maxEl ∧ now ≤ P.tPeak) ∧
    (∀ tLast, (sampleTimes (now - lookBack) (now + window) step).getLast? = some tLast →
      minEl ≤ el tLast →
      ∃ P, (computePassesForSat el (now - lookBack) (now + window) step minEl).getLast?
          = some P ∧ P.tEnd = now + window) := by
  constructor
  · intro P hP
    unfold reportedPasses at hP
    rw [List.mem_filter] at hP
    obtain ⟨hmem, hdec⟩ := hP
    have hnow : now ≤ P.tPeak := of_decide_eq_true hdec
    obtain ⟨g1, g2, g3⟩ :=
      computePasses_good el (now - lookBack) (now + window) step minEl hstep P hmem
    exact ⟨g1, g2, g3, hnow⟩
  · intro tLast hlast habove
    have hsome := scanPasses_final_isSome minEl el
      (sampleTimes (now - lookBack) (now + window) step) none tLast hlast habove
    rw [Option.isSome_iff_exists] at hsome
    obtain ⟨⟨s0, p0, pe0⟩, hfin⟩ := hsome
    refine ⟨⟨s0, p0, now + window, pe0⟩, ?_, rfl⟩
    rw [computePassesForSat_eq, hfin]
    exact List.getLast?_concat _

/-- C7 witness: a 30-unit window sampled every 10 units around a step
elevation profile yields exactly one reported pass, closed at the
window end, and the theorem's invariants hold for it. -/
theorem c7_pass_intervals_witness :
    reportedPasses (fun t => if t < 0 then (-5 : ℚ) else 15) 0 10 20 10 10 =
      [⟨0, 0, 20, 15⟩] ∧
    (∀ P ∈ reportedPasses (fun t => if t < 0 then (-5 : ℚ) else 15) 0 10 20 10 10,
      P.tStart ≤ P.tPeak ∧ P.tPeak ≤ P.tEnd ∧ (10 : ℚ) ≤ P.maxEl ∧ (0 : ℚ) ≤ P.tPeak) :=
  ⟨of_decide_eq_true (by with_unfolding_all rfl),
   (c7_pass_intervals (fun t => if t < 0 then (-5 : ℚ) else 15) 0 10 20 10 10
     (by norm_num)).1⟩

end Amsat
